import Mathlib

/-!
Verification of the multi-tenant core of the ghlmcp repository.

This file gives a shallow embedding, in Lean 4, of the tenant-management
subsystem of the repository: the tenant record stores
(`src/storage/tenant-store.ts`), the tenant configuration manager
(`src/core/tenant-config-manager.ts`), the API client factory and the
tenant resolver (`src/core/api-client-factory.ts`,
`src/core/tenant-resolver.ts`), the per-tenant rate-limit middleware
(`src/middleware/tenant-middleware.ts`) and the base tool class
(`src/tools/base-tool.ts`).  JavaScript `Map`s are embedded as
insertion-ordered association lists, `Date` values as natural-number
millisecond timestamps, thrown exceptions as `Except`/`Option` results,
and the AES-256-GCM primitive used by the config manager as an abstract
authenticated cipher (a structure bundling the encryption and decryption
maps together with their inverse law); everything around the cipher
(hex encoding, the `iv:authTag:ciphertext` wire format, the three-part
split, the plaintext fall-through) is embedded concretely.
-/

namespace Ghl

/-! ## Association lists (embedding of JavaScript `Map`)

JavaScript `Map` iterates in insertion order; `set` on an existing key
updates the value in place (keeping the key's position), `delete`
removes the key.  We embed a `Map` as a `List (String × α)` with unique
keys kept in insertion order. -/

/-- `map.get(k)` on an insertion-ordered association list. -/
def alGet {α : Type} (l : List (String × α)) (k : String) : Option α :=
  match l with
  | [] => none
  | (k', v) :: rest => if k' = k then some v else alGet rest k

/-- `map.set(k, v)`: update in place if `k` is present, else append. -/
def alSet {α : Type} (l : List (String × α)) (k : String) (v : α) :
    List (String × α) :=
  match l with
  | [] => [(k, v)]
  | (k', v') :: rest =>
      if k' = k then (k, v) :: rest else (k', v') :: alSet rest k v

/-- `map.delete(k)` (drops every pair stored under `k`). -/
def alDelete {α : Type} (l : List (String × α)) (k : String) :
    List (String × α) :=
  l.filter (fun kv => kv.1 ≠ k)

theorem alGet_alSet_same {α : Type} (l : List (String × α)) (k : String)
    (v : α) : alGet (alSet l k v) k = some v := by
  induction l with
  | nil => simp [alGet, alSet]
  | cons hd tl ih =>
      obtain ⟨k', v'⟩ := hd
      by_cases h : k' = k
      · simp [alGet, alSet, h]
      · simp [alGet, alSet, h, ih]

theorem alGet_alSet_other {α : Type} (l : List (String × α)) (k k' : String)
    (v : α) (hne : k' ≠ k) : alGet (alSet l k v) k' = alGet l k' := by
  have hkk : ¬(k = k') := fun h => hne h.symm
  induction l with
  | nil => simp [alGet, alSet, hkk]
  | cons hd tl ih =>
      obtain ⟨k0, v0⟩ := hd
      by_cases h : k0 = k
      · subst h
        simp [alGet, alSet, hkk]
      · simp only [alSet, if_neg h, alGet]
        by_cases h2 : k0 = k'
        · simp [h2]
        · simp [h2, ih]

theorem alGet_mem {α : Type} {l : List (String × α)} {k : String} {v : α}
    (h : alGet l k = some v) : (k, v) ∈ l := by
  induction l with
  | nil => simp [alGet] at h
  | cons hd tl ih =>
      obtain ⟨k', v'⟩ := hd
      by_cases hk : k' = k
      · subst hk
        simp [alGet] at h
        simp [h]
      · simp [alGet, hk] at h
        exact List.mem_cons_of_mem _ (ih h)

/-! ## Hexadecimal encoding (embedding of `Buffer` hex conversion)

`iv.toString('hex')` produces two lowercase hex digits per byte;
`Buffer.from(s, 'hex')` parses pairs of hex digits (either case) and
stops at the first pair that is not valid hex. -/

/-- The sixteen lowercase hexadecimal digit characters. -/
def hexDigits : List Char := "0123456789abcdef".data

/-- Digit character for a value below 16 (out-of-range values, which
never occur, fall back to `'0'`). -/
def hexDigitChar (n : Nat) : Char := hexDigits.getD n '0'

/-- One byte as two lowercase hex digit characters. -/
def byteToHex (b : Fin 256) : List Char :=
  [hexDigitChar (b.val / 16), hexDigitChar (b.val % 16)]

/-- `buffer.toString('hex')`. -/
def toHex (bs : List (Fin 256)) : String := ⟨(bs.map byteToHex).flatten⟩

/-- Value of a single hex digit character (either case), as in
`Buffer.from(·, 'hex')`. -/
def hexVal (c : Char) : Option (Fin 16) :=
  if h : c.toNat ≥ 48 ∧ c.toNat ≤ 57 then
    some ⟨c.toNat - 48, by omega⟩
  else if h2 : c.toNat ≥ 97 ∧ c.toNat ≤ 102 then
    some ⟨c.toNat - 87, by omega⟩
  else if h3 : c.toNat ≥ 65 ∧ c.toNat ≤ 70 then
    some ⟨c.toNat - 55, by omega⟩
  else none

/-- `Buffer.from(s, 'hex')` on a character list: parse pairs of hex
digits, stopping at the first invalid pair or lone trailing digit. -/
def fromHexCore : List Char → List (Fin 256)
  | c1 :: c2 :: rest =>
      match hexVal c1, hexVal c2 with
      | some h, some l =>
          (⟨16 * h.val + l.val, by omega⟩ : Fin 256) :: fromHexCore rest
      | _, _ => []
  | _ => []

/-- `Buffer.from(s, 'hex')`. -/
def fromHex (s : String) : List (Fin 256) := fromHexCore s.data

theorem hexDigitChar_mem (n : Nat) : hexDigitChar n ∈ hexDigits := by
  unfold hexDigitChar
  by_cases h : n < hexDigits.length
  · rw [List.getD_eq_getElem hexDigits '0' h]
    exact List.getElem_mem h
  · rw [List.getD_eq_default hexDigits '0' (Nat.le_of_not_lt h)]
    decide

theorem hexDigitChar_ne_colon (n : Nat) : hexDigitChar n ≠ ':' := by
  have h := hexDigitChar_mem n
  intro he
  rw [he] at h
  revert h
  decide

theorem hexVal_hexDigitChar (n : Fin 16) :
    hexVal (hexDigitChar n.val) = some n := by revert n; decide

theorem fromHexCore_byteToHex (b : Fin 256) (rest : List Char) :
    fromHexCore (byteToHex b ++ rest) = b :: fromHexCore rest := by
  have h1 : b.val / 16 < 16 := by omega
  have h2 : b.val % 16 < 16 := by omega
  have e1 := hexVal_hexDigitChar ⟨b.val / 16, h1⟩
  have e2 := hexVal_hexDigitChar ⟨b.val % 16, h2⟩
  simp only [byteToHex, List.cons_append, List.nil_append, fromHexCore,
    e1, e2]
  congr 1
  apply Fin.ext
  simp
  omega

theorem fromHex_toHex (bs : List (Fin 256)) : fromHex (toHex bs) = bs := by
  unfold fromHex toHex
  show fromHexCore (bs.map byteToHex).flatten = bs
  induction bs with
  | nil => rfl
  | cons b rest ih =>
      simp only [List.map_cons, List.flatten_cons]
      rw [fromHexCore_byteToHex]
      rw [ih]

theorem toHex_no_colon (bs : List (Fin 256)) : ':' ∉ (toHex bs).data := by
  show ':' ∉ (bs.map byteToHex).flatten
  intro h
  rw [List.mem_flatten] at h
  obtain ⟨l, hl, hc⟩ := h
  rw [List.mem_map] at hl
  obtain ⟨b, _, rfl⟩ := hl
  simp only [byteToHex, List.mem_cons, List.not_mem_nil] at hc
  rcases hc with h | h | h
  · exact hexDigitChar_ne_colon _ h.symm
  · exact hexDigitChar_ne_colon _ h.symm
  · exact h

/-! ## Base-36 rendering and the factory's rolling hash

`hashString` in `api-client-factory.ts`:
```
let hash = 0;
for (let i = 0; i < str.length; i++) {
  const char = str.charCodeAt(i);
  hash = ((hash << 5) - hash) + char;
  hash = hash & hash; // Convert to 32-bit integer
}
return Math.abs(hash).toString(36);
```
`<<` and `&` coerce to 32-bit two's-complement integers, embedded as
`toInt32`.  `Number.prototype.toString(36)` renders with digits
`0-9a-z`. -/

/-- JavaScript `ToInt32`: wrap an integer into `[-2^31, 2^31)`. -/
def toInt32 (x : Int) : Int := (x + 2 ^ 31) % 2 ^ 32 - 2 ^ 31

/-- One step of the rolling hash: `hash = ((hash << 5) - hash) + char`
followed by `hash = hash & hash`. -/
def hashStep (h : Int) (c : Nat) : Int :=
  toInt32 (toInt32 (h * 32) - h + (c : Int))

/-- The thirty-six digit characters used by `Number.toString(36)`. -/
def base36Digits : List Char := "0123456789abcdefghijklmnopqrstuvwxyz".data

/-- Digit character for a value below 36 (out-of-range values, which
never occur, fall back to `'0'`). -/
def base36Digit (n : Nat) : Char := base36Digits.getD n '0'

/-- Digits of `n` in base 36, most significant first; `fuel` bounds the
recursion depth (passing `fuel = n + 1` is always enough). -/
def base36Core : Nat → Nat → List Char
  | 0, _ => []
  | _ + 1, n =>
      if n < 36 then [base36Digit n]
      else base36Core (n / 36) (n / 36) ++ [base36Digit (n % 36)]

/-- `n.toString(36)` for a natural number. -/
def toBase36 (n : Nat) : String := ⟨base36Core (n + 1) n⟩

/-- `GHLApiClientFactory.hashString` (charCodeAt is embedded as
`Char.toNat`, exact for all characters in the basic multilingual
plane). -/
def hashString (s : String) : String :=
  toBase36 (s.data.foldl (fun h c => hashStep h c.toNat) 0).natAbs

theorem base36Digit_mem (n : Nat) : base36Digit n ∈ base36Digits := by
  unfold base36Digit
  by_cases h : n < base36Digits.length
  · rw [List.getD_eq_getElem base36Digits '0' h]
    exact List.getElem_mem h
  · rw [List.getD_eq_default base36Digits '0' (Nat.le_of_not_lt h)]
    decide

theorem base36Digit_ne_underscore (n : Nat) : base36Digit n ≠ '_' := by
  have h := base36Digit_mem n
  intro he
  rw [he] at h
  revert h
  decide

theorem base36Core_no_underscore (fuel n : Nat) :
    '_' ∉ base36Core fuel n := by
  induction n using Nat.strong_induction_on generalizing fuel with
  | _ n ih =>
      match fuel with
      | 0 => simp [base36Core]
      | f + 1 =>
          simp only [base36Core]
          by_cases h : n < 36
          · rw [if_pos h]
            intro hmem
            exact base36Digit_ne_underscore n (List.mem_singleton.mp hmem).symm
          · rw [if_neg h]
            intro hmem
            rcases List.mem_append.mp hmem with h1 | h1
            · exact ih (n / 36) (by omega) _ h1
            · exact base36Digit_ne_underscore _ (List.mem_singleton.mp h1).symm

theorem hashString_no_underscore (s : String) :
    '_' ∉ (hashString s).data := by
  unfold hashString toBase36
  exact base36Core_no_underscore _ _

/-! ## String utilities shared by the embedded components -/

/-- Split a character list at `':'`, the embedding of
`encryptedText.split(':')` (every separator occurrence splits; an empty
input yields one empty part). -/
def splitColon : List Char → List (List Char)
  | [] => [[]]
  | c :: rest =>
      let r := splitColon rest
      if c = ':' then [] :: r
      else
        match r with
        | x :: xs => (c :: x) :: xs
        | [] => [[c]]

theorem splitColon_ne_nil (l : List Char) : splitColon l ≠ [] := by
  cases l with
  | nil => simp [splitColon]
  | cons c rest =>
      simp only [splitColon]
      by_cases h : c = ':'
      · simp [h]
      · simp only [if_neg h]
        cases splitColon rest with
        | nil => simp
        | cons x xs => simp

theorem splitColon_no_colon {l : List Char} (h : ':' ∉ l) :
    splitColon l = [l] := by
  induction l with
  | nil => rfl
  | cons c rest ih =>
      have hc : c ≠ ':' := fun he => h (he ▸ List.mem_cons_self c rest)
      have hrest : ':' ∉ rest := fun hm => h (List.mem_cons_of_mem c hm)
      simp only [splitColon, if_neg hc, ih hrest]

theorem splitColon_append {a : List Char} (b : List Char) (h : ':' ∉ a) :
    splitColon (a ++ ':' :: b) = a :: splitColon b := by
  induction a with
  | nil => simp [splitColon]
  | cons c rest ih =>
      have hc : c ≠ ':' := fun he => h (he ▸ List.mem_cons_self c rest)
      have hrest : ':' ∉ rest := fun hm => h (List.mem_cons_of_mem c hm)
      simp only [List.cons_append, splitColon, if_neg hc, List.append_eq,
        ih hrest]

/-- If a list ends in `'_' :: h` with `h` underscore-free, the prefix
before that final underscore is uniquely determined (the cache keys
`tenantId + "_" + hash` of the factory decompose uniquely because the
base-36 hash part never contains an underscore). -/
theorem append_underscore_inj :
    ∀ (a a' h h' : List Char), '_' ∉ h → '_' ∉ h' →
      a ++ '_' :: h = a' ++ '_' :: h' → a = a' ∧ h = h' := by
  intro a
  induction a with
  | nil =>
      intro a' h h' hh hh' he
      cases a' with
      | nil => simpa using he
      | cons c rest =>
          exfalso
          simp only [List.nil_append, List.cons_append, List.cons_eq_cons] at he
          obtain ⟨rfl, he2⟩ := he
          exact hh (he2 ▸ List.mem_append_right rest (List.mem_cons_self '_' h'))
  | cons c rest ih =>
      intro a' h h' hh hh' he
      cases a' with
      | nil =>
          exfalso
          simp only [List.nil_append, List.cons_append, List.cons_eq_cons] at he
          obtain ⟨rfl, he2⟩ := he
          exact hh' (he2 ▸ List.mem_append_right rest (List.mem_cons_self '_' h))
      | cons c' rest' =>
          simp only [List.cons_append, List.cons_eq_cons] at he
          obtain ⟨rfl, he2⟩ := he
          obtain ⟨h1, h2⟩ := ih rest' h h' hh hh' he2
          exact ⟨by rw [h1], h2⟩

/-- JavaScript truthiness of an optional string: `undefined` and `""`
are falsy. -/
def optTruthy : Option String → Bool
  | none => false
  | some s => s ≠ ""

/-- ASCII lowercasing of one character (`String.prototype.toLowerCase`
restricted to the ASCII range, which covers every name used by the
resolver). -/
def asciiLower (c : Char) : Char :=
  if 'A' ≤ c ∧ c ≤ 'Z' then Char.ofNat (c.toNat + 32) else c

/-- `s.toLowerCase()`. -/
def strLower (s : String) : String := ⟨s.data.map asciiLower⟩

/-- `s.trim()` (restricted to ASCII whitespace). -/
def strTrim (s : String) : String :=
  ⟨(s.data.dropWhile Char.isWhitespace).reverse.dropWhile
      Char.isWhitespace |>.reverse⟩

/-! ## Data model (`tenant-store.ts`, `ghl-types.ts`)

`TenantConfig` is the stored tenant record; `createdAt`/`updatedAt` are
`Date` values embedded as millisecond timestamps.  `settings` values are
free-form in the source (`Record<string, any>`); the claims never
inspect them, so they are embedded as string-valued maps.
`TenantConfigInput` is `Omit<TenantConfig, 'createdAt' | 'updatedAt'>`
(the argument type of the stores' `create`), and `PartialTenantConfig`
is `Partial<TenantConfig>` (absent keys are `none`). -/

structure TenantConfig where
  tenantId : String
  name : String
  apiKey : String
  locationId : String
  baseUrl : Option String
  version : Option String
  settings : Option (List (String × String))
  createdAt : Nat
  updatedAt : Nat
  isActive : Bool
deriving DecidableEq

structure TenantConfigInput where
  tenantId : String
  name : String
  apiKey : String
  locationId : String
  baseUrl : Option String
  version : Option String
  settings : Option (List (String × String))
  isActive : Bool
deriving DecidableEq

structure PartialTenantConfig where
  tenantId : Option String := none
  name : Option String := none
  apiKey : Option String := none
  locationId : Option String := none
  baseUrl : Option (Option String) := none
  version : Option (Option String) := none
  settings : Option (Option (List (String × String))) := none
  createdAt : Option Nat := none
  updatedAt : Option Nat := none
  isActive : Option Bool := none
deriving DecidableEq

/-- `GHLConfig`, the constructor argument of `GHLApiClient`. -/
structure GHLConfig where
  accessToken : String
  baseUrl : String
  version : String
  locationId : String
deriving DecidableEq

/-- A `GHLApiClient` instance; the claims only observe the
configuration it was constructed from. -/
structure GHLApiClient where
  config : GHLConfig
deriving DecidableEq

def ghlDefaultBaseUrl : String := "https://services.leadconnectorhq.com"

def ghlDefaultVersion : String := "2021-07-28"

/-! ## API client factory (`api-client-factory.ts`)

The factory's mutable `clientCache : Map<string, CachedClient>` is
threaded explicitly; `new Date()` occurrences are the explicit `now`
parameter. -/

structure CachedClient where
  client : GHLApiClient
  lastUsed : Nat
  tenantId : String
deriving DecidableEq

/-- The factory's `clientCache` map. -/
abbrev ClientCache := List (String × CachedClient)

/-- `GHLApiClientFactory.createClient`. -/
def createClient (tenant : TenantConfig) : GHLApiClient :=
  ⟨{ accessToken := tenant.apiKey,
     baseUrl := tenant.baseUrl.getD ghlDefaultBaseUrl,
     version := tenant.version.getD ghlDefaultVersion,
     locationId := tenant.locationId }⟩

/-- `GHLApiClientFactory.getCacheKey`:
`` `${tenant.tenantId}_${keyHash}` ``. -/
def getCacheKey (tenant : TenantConfig) : String :=
  tenant.tenantId ++ "_" ++ hashString tenant.apiKey

/-- The LRU scan inside `addToCache`: iterate the cache in insertion
order keeping the key of the entry whose `lastUsed` is strictly below
the running minimum, which starts at `new Date()` (the current time). -/
def findOldestKey (cache : ClientCache) (now : Nat) : Option String :=
  (cache.foldl
    (fun acc kv =>
      if kv.2.lastUsed < acc.2 then (some kv.1, kv.2.lastUsed) else acc)
    ((none : Option String), now)).1

/-- `GHLApiClientFactory.addToCache`: when `size >= maxCacheSize`,
delete the key found by the LRU scan (if any), then insert. -/
def addToCache (maxCacheSize : Nat) (cache : ClientCache) (now : Nat)
    (key : String) (cached : CachedClient) : ClientCache :=
  let cache' :=
    if maxCacheSize ≤ cache.length then
      match findOldestKey cache now with
      | some oldestKey => alDelete cache oldestKey
      | none => cache
    else cache
  alSet cache' key cached

/-- `GHLApiClientFactory.getClient`: on a hit refresh `lastUsed` and
return the cached client, on a miss construct a client and insert it. -/
def getClient (maxCacheSize : Nat) (cache : ClientCache)
    (tenant : TenantConfig) (now : Nat) : GHLApiClient × ClientCache :=
  let cacheKey := getCacheKey tenant
  match alGet cache cacheKey with
  | some cached =>
      (cached.client, alSet cache cacheKey { cached with lastUsed := now })
  | none =>
      let client := createClient tenant
      (client,
        addToCache maxCacheSize cache now cacheKey
          { client := client, lastUsed := now, tenantId := tenant.tenantId })

/-- `GHLApiClientFactory.clearTenantCache`: remove every entry whose
stored tenant id matches. -/
def clearTenantCache (cache : ClientCache) (tenantId : String) :
    ClientCache :=
  cache.filter (fun kv => kv.2.tenantId ≠ tenantId)

/-- Every key the factory ever stores has the shape
`tenantId ++ "_" ++ hashString token` for the entry's own recorded
tenant id; `getClient` only inserts keys built by `getCacheKey` from
the same tenant record it stores. -/
def WFCache (cache : ClientCache) : Prop :=
  ∀ kv ∈ cache, ∃ token : String,
    kv.1 = kv.2.tenantId ++ "_" ++ hashString token

theorem cacheKey_data (a : String) (h : String) :
    (a ++ "_" ++ h).data = a.data ++ '_' :: h.data := by
  rw [String.data_append, String.data_append, List.append_assoc]
  rfl

/-- After `clearTenantCache tenantId`, a lookup with a key built by
`getCacheKey` for that same tenant id always misses: surviving entries
have a different stored tenant id, and a cache key determines its
tenant id because the hash suffix never contains `'_'`. -/
theorem alGet_clear_getCacheKey (cache : ClientCache)
    (tenant : TenantConfig) (hwf : WFCache cache) :
    alGet (clearTenantCache cache tenant.tenantId) (getCacheKey tenant)
      = none := by
  cases hget : alGet (clearTenantCache cache tenant.tenantId)
      (getCacheKey tenant) with
  | none => rfl
  | some cc =>
      exfalso
      have hmem := alGet_mem hget
      rw [clearTenantCache, List.mem_filter] at hmem
      obtain ⟨hmem, hne⟩ := hmem
      obtain ⟨token, htok⟩ := hwf _ hmem
      have hkey : getCacheKey tenant
          = cc.tenantId ++ "_" ++ hashString token := htok
      have hdata := congrArg String.data hkey
      rw [getCacheKey, cacheKey_data, cacheKey_data] at hdata
      have hinj := append_underscore_inj tenant.tenantId.data cc.tenantId.data
        (hashString tenant.apiKey).data (hashString token).data
        (hashString_no_underscore tenant.apiKey)
        (hashString_no_underscore token) hdata
      have : tenant.tenantId = cc.tenantId := by
        apply String.ext
        exact hinj.1
      simp only [decide_eq_true_eq] at hne
      exact hne (this ▸ rfl)

/-- `getClient` on a cache from which the tenant's entries were cleared
constructs a fresh client from the supplied configuration. -/
theorem getClient_after_clear (maxCacheSize : Nat) (cache : ClientCache)
    (tenant : TenantConfig) (now : Nat) (hwf : WFCache cache) :
    (getClient maxCacheSize (clearTenantCache cache tenant.tenantId)
        tenant now).1 = createClient tenant := by
  unfold getClient
  simp only [alGet_clear_getCacheKey cache tenant hwf]

/-! ## Tenant stores (`tenant-store.ts`)

The in-memory store's `Map<string, TenantConfig>` is an association
list.  The composite store layers a writable primary over a fallback;
the repository wires it as
`new CompositeTenantStore(new InMemoryTenantStore(), new EnvVarTenantStore())`,
so mutation always lands in the in-memory primary while the fallback is
only read.  Both stores of the composite are embedded as association
lists (an `EnvVarTenantStore` is observationally an association list
holding at most the `"default"` record). -/

abbrev TenantStoreMap := List (String × TenantConfig)

/-- The record built by `InMemoryTenantStore.create`:
`{...config, createdAt: now, updatedAt: now}`. -/
def mkTenant (cfg : TenantConfigInput) (now : Nat) : TenantConfig :=
  { tenantId := cfg.tenantId, name := cfg.name, apiKey := cfg.apiKey,
    locationId := cfg.locationId, baseUrl := cfg.baseUrl,
    version := cfg.version, settings := cfg.settings,
    createdAt := now, updatedAt := now, isActive := cfg.isActive }

/-- `InMemoryTenantStore.get`. -/
def inMemGet (s : TenantStoreMap) (tenantId : String) :
    Option TenantConfig :=
  alGet s tenantId

/-- `InMemoryTenantStore.exists`. -/
def inMemExists (s : TenantStoreMap) (tenantId : String) : Bool :=
  (alGet s tenantId).isSome

/-- `InMemoryTenantStore.create`: stamps both timestamps with `now` and
stores the record under its tenant id, with no check whether the id is
already present (`this.tenants.set` overwrites). -/
def inMemCreate (s : TenantStoreMap) (cfg : TenantConfigInput)
    (now : Nat) : TenantConfig × TenantStoreMap :=
  let tenant := mkTenant cfg now
  (tenant, alSet s tenant.tenantId tenant)

/-- `InMemoryTenantStore.update`:
`{...existing, ...config, tenantId: existing.tenantId,
createdAt: existing.createdAt, updatedAt: new Date()}` — later keys of
an object literal win, so the explicit `tenantId`/`createdAt` fields
override whatever the partial carried. -/
def inMemUpdate (s : TenantStoreMap) (tenantId : String)
    (p : PartialTenantConfig) (now : Nat) :
    Except String (TenantConfig × TenantStoreMap) :=
  match alGet s tenantId with
  | none => .error ("Tenant " ++ tenantId ++ " not found")
  | some existing =>
      let updated : TenantConfig :=
        { tenantId := existing.tenantId
          name := p.name.getD existing.name
          apiKey := p.apiKey.getD existing.apiKey
          locationId := p.locationId.getD existing.locationId
          baseUrl := p.baseUrl.getD existing.baseUrl
          version := p.version.getD existing.version
          settings := p.settings.getD existing.settings
          createdAt := existing.createdAt
          updatedAt := now
          isActive := p.isActive.getD existing.isActive }
      .ok (updated, alSet s tenantId updated)

/-- `InMemoryTenantStore.delete`. -/
def inMemDelete (s : TenantStoreMap) (tenantId : String) :
    Bool × TenantStoreMap :=
  ((alGet s tenantId).isSome, alDelete s tenantId)

/-- The plain spread `{...fallbackTenant, ...config}` used by the
composite store's promote-on-update path (no field is protected
here). -/
def spreadConfig (t : TenantConfig) (p : PartialTenantConfig) :
    TenantConfig :=
  { tenantId := p.tenantId.getD t.tenantId
    name := p.name.getD t.name
    apiKey := p.apiKey.getD t.apiKey
    locationId := p.locationId.getD t.locationId
    baseUrl := p.baseUrl.getD t.baseUrl
    version := p.version.getD t.version
    settings := p.settings.getD t.settings
    createdAt := p.createdAt.getD t.createdAt
    updatedAt := p.updatedAt.getD t.updatedAt
    isActive := p.isActive.getD t.isActive }

/-- `const { createdAt, updatedAt, ...createConfig } = newTenant`. -/
def dropTimestamps (t : TenantConfig) : TenantConfigInput :=
  { tenantId := t.tenantId, name := t.name, apiKey := t.apiKey,
    locationId := t.locationId, baseUrl := t.baseUrl,
    version := t.version, settings := t.settings,
    isActive := t.isActive }

/-- `CompositeTenantStore.get`: primary first, else fallback. -/
def compGet (primary fallback : TenantStoreMap) (tenantId : String) :
    Option TenantConfig :=
  match alGet primary tenantId with
  | some t => some t
  | none => alGet fallback tenantId

/-- `CompositeTenantStore.exists`. -/
def compExists (primary fallback : TenantStoreMap) (tenantId : String) :
    Bool :=
  (alGet primary tenantId).isSome || (alGet fallback tenantId).isSome

/-- `CompositeTenantStore.create` delegates to the primary store. -/
def compCreate (primary : TenantStoreMap) (cfg : TenantConfigInput)
    (now : Nat) : TenantConfig × TenantStoreMap :=
  inMemCreate primary cfg now

/-- `CompositeTenantStore.update`: update in place when the id exists
in the primary; when it exists only in the fallback, merge the partial
into the fallback record, strip the timestamps and `create` the result
in the primary (the promote path); else `NotFound`. -/
def compUpdate (primary fallback : TenantStoreMap) (tenantId : String)
    (p : PartialTenantConfig) (now : Nat) :
    Except String (TenantConfig × TenantStoreMap) :=
  if (alGet primary tenantId).isSome then
    inMemUpdate primary tenantId p now
  else
    match alGet fallback tenantId with
    | some fallbackTenant =>
        .ok (inMemCreate primary
          (dropTimestamps (spreadConfig fallbackTenant p)) now)
    | none => .error ("Tenant " ++ tenantId ++ " not found")

/-! ## Credential encryption (`tenant-config-manager.ts`)

`encrypt` renders `iv.toString('hex') + ':' + authTag.toString('hex')
+ ':' + encrypted`; `decrypt` splits on `':'`, treats anything that is
not exactly three parts as legacy plaintext, and swallows any
decryption failure by returning the input unchanged.  The AES-256-GCM
core (`createCipheriv`/`createDecipheriv` under the scrypt-derived
key) is embedded as an abstract authenticated cipher: `enc` maps an IV
and a plaintext to `(ciphertext, authTag)`, `dec` returns `none` where
the real decipher would throw, and `dec_enc` is the inverse law of the
cipher. -/

structure Gcm where
  enc : List (Fin 256) → String → List (Fin 256) × List (Fin 256)
  dec : List (Fin 256) → List (Fin 256) → List (Fin 256) → Option String
  dec_enc : ∀ iv pt, dec iv (enc iv pt).2 (enc iv pt).1 = some pt

/-- `TenantConfigManager.encrypt` (the random `iv` is an explicit
argument). -/
def mgrEncrypt (g : Gcm) (iv : List (Fin 256)) (text : String) : String :=
  let encrypted := (g.enc iv text).1
  let authTag := (g.enc iv text).2
  toHex iv ++ ":" ++ toHex authTag ++ ":" ++ toHex encrypted

/-- `TenantConfigManager.decrypt`. -/
def mgrDecrypt (g : Gcm) (encryptedText : String) : String :=
  match (splitColon encryptedText.data).map (fun l => String.mk l) with
  | [p0, p1, p2] =>
      match g.dec (fromHex p0) (fromHex p1) (fromHex p2) with
      | some decrypted => decrypted
      | none => encryptedText
  | _ => encryptedText

theorem mgrDecrypt_mgrEncrypt (g : Gcm) (iv : List (Fin 256))
    (text : String) : mgrDecrypt g (mgrEncrypt g iv text) = text := by
  unfold mgrEncrypt mgrDecrypt
  have hdata : (toHex iv ++ ":" ++ toHex (g.enc iv text).2 ++ ":"
      ++ toHex (g.enc iv text).1).data
      = (toHex iv).data ++ ':' :: ((toHex (g.enc iv text).2).data
        ++ ':' :: (toHex (g.enc iv text).1).data) := by
    simp only [String.data_append, List.append_assoc]
    rfl
  rw [hdata]
  rw [splitColon_append _ (toHex_no_colon iv),
    splitColon_append _ (toHex_no_colon (g.enc iv text).2),
    splitColon_no_colon (toHex_no_colon (g.enc iv text).1)]
  simp only [List.map_cons, List.map_nil]
  have hmk : ∀ bs : List (Fin 256), String.mk (toHex bs).data = toHex bs :=
    fun bs => rfl
  rw [hmk, hmk, hmk]
  simp only [fromHex_toHex, g.dec_enc]

theorem mgrDecrypt_not_three_parts (g : Gcm) (s : String)
    (h : (splitColon s.data).length ≠ 3) : mgrDecrypt g s = s := by
  unfold mgrDecrypt
  rcases hs : (splitColon s.data).map (fun l => String.mk l) with
    _ | ⟨a, _ | ⟨b, _ | ⟨c, _ | ⟨d, t⟩⟩⟩⟩ <;>
    first
      | rfl
      | · exfalso
          apply h
          have := congrArg List.length hs
          simpa using this

/-! ## Tenant config manager (`tenant-config-manager.ts`)

The manager is generic over `TenantStore`; the mutating paths are
embedded here against the in-memory variant (the composite store
delegates `create` to its in-memory primary, so `createTenant` behaves
identically under the production wiring).  The live
`testClient.testConnection()` network call is an oracle `testOk`
parameter; `testTenantConfig`'s own precondition check (`!apiKey ||
!locationId`) is embedded concretely. -/

structure CreateTenantRequest where
  tenantId : Option String := none
  name : String
  apiKey : String
  locationId : String
  baseUrl : Option String := none
  version : Option String := none
  settings : Option (List (String × String)) := none
deriving DecidableEq

structure UpdateTenantRequest where
  name : Option String := none
  apiKey : Option String := none
  locationId : Option String := none
  baseUrl : Option String := none
  version : Option String := none
  settings : Option (List (String × String)) := none
  isActive : Option Bool := none
deriving DecidableEq

/-- One character of the tenant-id pattern `[a-zA-Z0-9_-]`. -/
def isIdChar (c : Char) : Bool :=
  (97 ≤ c.toNat && c.toNat ≤ 122) || (65 ≤ c.toNat && c.toNat ≤ 90) ||
    (48 ≤ c.toNat && c.toNat ≤ 57) || c = '_' || c = '-'

/-- `TenantConfigManager.validateCreateRequest`; a falsy (`undefined`
or empty) `tenantId` skips the pattern check because the id will be
generated. -/
def validateCreateRequest (r : CreateTenantRequest) :
    Except String Unit :=
  if strTrim r.name = "" then .error "Tenant name is required"
  else if strTrim r.apiKey = "" then .error "API key is required"
  else if strTrim r.locationId = "" then .error "Location ID is required"
  else if optTruthy r.tenantId then
    if (r.tenantId.getD "").data.all isIdChar then .ok ()
    else .error "Tenant ID must contain only alphanumeric characters"
  else .ok ()

/-- `TenantConfigManager.testTenantConfig`: reject when the key or the
location id is missing, then consult the live-connection oracle. -/
def testTenantConfig (apiKey locationId : String) (testOk : Bool) :
    Except String Unit :=
  if apiKey = "" ∨ locationId = "" then
    .error "API key and location ID are required"
  else if testOk then .ok ()
  else .error "Invalid tenant configuration"

/-- `TenantConfigManager.createTenant`.  `genId` stands for the
generated `tenant_<timestamp>_<random>` id used when the request
carries no (truthy) explicit id; the returned record is exactly what
`tenantStore.create` returned. -/
def createTenant (g : Gcm) (iv : List (Fin 256)) (store : TenantStoreMap)
    (r : CreateTenantRequest) (genId : String) (testOk : Bool)
    (now : Nat) : Except String (TenantConfig × TenantStoreMap) :=
  match validateCreateRequest r with
  | .error e => .error e
  | .ok () =>
      let tenantId := if optTruthy r.tenantId then r.tenantId.getD ""
        else genId
      if (alGet store tenantId).isSome then
        .error ("Tenant " ++ tenantId ++ " already exists")
      else
        let encryptedApiKey := mgrEncrypt g iv r.apiKey
        let cfg : TenantConfigInput :=
          { tenantId := tenantId, name := r.name,
            apiKey := encryptedApiKey, locationId := r.locationId,
            baseUrl := some (if optTruthy r.baseUrl then r.baseUrl.getD ""
              else ghlDefaultBaseUrl),
            version := some (if optTruthy r.version then r.version.getD ""
              else ghlDefaultVersion),
            settings := some (r.settings.getD []),
            isActive := true }
        match testTenantConfig cfg.apiKey cfg.locationId testOk with
        | .error e => .error e
        | .ok () => .ok (inMemCreate store cfg now)

/-- The `update` partial built by `TenantConfigManager.updateTenant`:
every defined request field is copied over, with a defined `apiKey`
encrypted first. -/
def updatePartialOf (g : Gcm) (iv : List (Fin 256))
    (r : UpdateTenantRequest) : PartialTenantConfig :=
  { name := r.name, locationId := r.locationId,
    baseUrl := r.baseUrl.map some, version := r.version.map some,
    settings := r.settings.map some, isActive := r.isActive,
    apiKey := r.apiKey.map (mgrEncrypt g iv) }

/-- The `updateTenant` test block: when a truthy credential, location
id, or base URL arrives, re-test `{...existing, ...update}` with the
plaintext credential; otherwise skip the test. -/
def updateTestResult (g : Gcm) (existing : TenantConfig)
    (r : UpdateTenantRequest) (testOk : Bool) : Except String Unit :=
  if optTruthy r.apiKey || optTruthy r.locationId
      || optTruthy r.baseUrl then
    testTenantConfig
      (if optTruthy r.apiKey then r.apiKey.getD ""
        else mgrDecrypt g existing.apiKey)
      (r.locationId.getD existing.locationId) testOk
  else .ok ()

/-- `TenantConfigManager.updateTenant`.  Returns the decrypted view of
the updated record together with the new store and the new factory
cache (the manager calls `clearTenantCache(tenantId)` on the singleton
factory after persisting). -/
def updateTenant (g : Gcm) (iv : List (Fin 256)) (store : TenantStoreMap)
    (cache : ClientCache) (tenantId : String) (r : UpdateTenantRequest)
    (testOk : Bool) (now : Nat) :
    Except String (TenantConfig × TenantStoreMap × ClientCache) :=
  match alGet store tenantId with
  | none => .error ("Tenant " ++ tenantId ++ " not found")
  | some existing =>
      match updateTestResult g existing r testOk with
      | .error e => .error e
      | .ok () =>
          match inMemUpdate store tenantId (updatePartialOf g iv r) now with
          | .error e => .error e
          | .ok (updated, store') =>
              .ok ({ updated with apiKey := mgrDecrypt g updated.apiKey },
                store', clearTenantCache cache tenantId)

/-- `TenantConfigManager.deleteTenant`: the reserved `"default"` id is
protected; otherwise clear the factory cache, then delete. -/
def deleteTenant (store : TenantStoreMap) (cache : ClientCache)
    (tenantId : String) : Except String (Bool × TenantStoreMap × ClientCache) :=
  if tenantId = "default" then .error "Cannot delete default tenant"
  else
    let cache' := clearTenantCache cache tenantId
    let (deleted, store') := inMemDelete store tenantId
    .ok (deleted, store', cache')

/-! ## Tenant resolver (`tenant-resolver.ts`) -/

inductive TenantSource
  | header
  | query
  | env
  | dflt
deriving DecidableEq

structure TenantIdentifier where
  tenantId : String
  source : TenantSource
deriving DecidableEq

structure ResolverOptions where
  headerName : Option String := some "x-tenant-id"
  queryParam : Option String := some "tenant"
  enableEnvFallback : Bool := true
deriving DecidableEq

/-- An inbound HTTP request as the resolver sees it: the header map,
the parsed query map, and the raw URL. -/
structure HttpReq where
  headers : List (String × String)
  query : List (String × String)
  url : String
deriving DecidableEq

/-- `TenantResolver.getHeaderValue`: direct lookup under the lowercased
name, falling back (also when the direct hit is falsy) to a
case-insensitive scan over the header entries. -/
def getHeaderValue (headers : List (String × String)) (headerName : String) :
    Option String :=
  let lowerHeaderName := strLower headerName
  let scan := (headers.find?
    (fun kv => strLower kv.1 = lowerHeaderName)).map Prod.snd
  match alGet headers lowerHeaderName with
  | some v => if v = "" then scan else some v
  | none => scan

/-- The first match of the pattern `\/tenant\/([^\/]+)` in a URL: scan
left to right for an occurrence of `"/tenant/"` followed by at least
one non-`'/'` character, and capture that run. -/
def pathTenantMatch : List Char → Option (List Char)
  | [] => none
  | c :: rest =>
      if "/tenant/".data.isPrefixOf (c :: rest) then
        let cap := ((c :: rest).drop 8).takeWhile (fun x => x != '/')
        if cap = [] then pathTenantMatch rest else some cap
      else pathTenantMatch rest

/-- Step 1 of `resolveFromHttpRequest`: the configured header (truthy
value that names an existing tenant). -/
def resolveViaHeader (exists_ : String → Bool) (opts : ResolverOptions)
    (req : HttpReq) : Option TenantIdentifier :=
  match opts.headerName with
  | some hn =>
      match getHeaderValue req.headers hn with
      | some v =>
          if v ≠ "" && exists_ v then
            some { tenantId := v, source := .header }
          else none
      | none => none
  | none => none

/-- Step 2: the configured query parameter. -/
def resolveViaQuery (exists_ : String → Bool) (opts : ResolverOptions)
    (req : HttpReq) : Option TenantIdentifier :=
  match opts.queryParam with
  | some qp =>
      match alGet req.query qp with
      | some v =>
          if v ≠ "" && exists_ v then
            some { tenantId := v, source := .query }
          else none
      | none => none
  | none => none

/-- Step 3: the `/tenant/<id>` URL path segment.  The source recorded
here is `'query'` (`tenant-resolver.ts` line 63), not a distinct
path tag. -/
def resolveViaPath (exists_ : String → Bool) (req : HttpReq) :
    Option TenantIdentifier :=
  match pathTenantMatch req.url.data with
  | some cap =>
      if exists_ (String.mk cap) then
        some { tenantId := String.mk cap, source := .query }
      else none
  | none => none

/-- Step 4: the `"default"` fallback, when enabled and present. -/
def resolveViaFallback (exists_ : String → Bool)
    (opts : ResolverOptions) : Option TenantIdentifier :=
  if opts.enableEnvFallback && exists_ "default" then
    some { tenantId := "default", source := .env }
  else none

/-- `TenantResolver.resolveFromHttpRequest`, with the store's `exists`
behind `exists_`: header, then query parameter, then URL path, then
the `"default"` fallback — first match wins. -/
def resolveFromHttpRequest (exists_ : String → Bool)
    (opts : ResolverOptions) (req : HttpReq) : Option TenantIdentifier :=
  (resolveViaHeader exists_ opts req).orElse fun _ =>
    (resolveViaQuery exists_ opts req).orElse fun _ =>
      (resolveViaPath exists_ req).orElse fun _ =>
        resolveViaFallback exists_ opts

/-- `TenantResolver.validateTenant`. -/
def validateTenant (get : String → Option TenantConfig)
    (tenantId : String) : Bool × Option String :=
  match get tenantId with
  | none => (false, some "Tenant not found")
  | some tenant =>
      if ¬tenant.isActive then (false, some "Tenant is not active")
      else if tenant.apiKey = "" ∨ tenant.locationId = "" then
        (false, some "Tenant configuration incomplete")
      else (true, none)

/-! ## Per-tenant rate limiting (`tenant-middleware.ts`)

`createTenantRateLimitMiddleware` keeps a `Map<string, RateLimitEntry>`
per tenant; each request either skips (no resolved tenant), passes with
rate-limit headers, or is rejected with 429 and a `retryAfter`
computed as `Math.ceil((entry.resetTime - now) / 1000)` seconds. -/

structure RateLimitOptions where
  windowMs : Nat
  maxRequests : Nat
deriving DecidableEq

structure RateLimitEntry where
  count : Nat
  resetTime : Nat
deriving DecidableEq

abbrev RateLimitMap := List (String × RateLimitEntry)

inductive RlOutcome
  | skip
  | pass (remaining : Nat)
  | reject (retryAfter : Nat)
deriving DecidableEq

/-- One request through the rate-limit middleware.  `tenantId?` is
`req.tenantId` (absent when no tenant was resolved); `now` is
`Date.now()`. -/
def rlStep (opts : RateLimitOptions) (limits : RateLimitMap)
    (tenantId? : Option String) (now : Nat) : RateLimitMap × RlOutcome :=
  match tenantId? with
  | none => (limits, .skip)
  | some tenantId =>
      let entry : RateLimitEntry :=
        match alGet limits tenantId with
        | some e =>
            if e.resetTime < now then
              { count := 0, resetTime := now + opts.windowMs }
            else e
        | none => { count := 0, resetTime := now + opts.windowMs }
      let entry' : RateLimitEntry := { entry with count := entry.count + 1 }
      let limits' := alSet limits tenantId entry'
      if opts.maxRequests < entry'.count then
        (limits', .reject ((entry'.resetTime - now + 999) / 1000))
      else
        (limits', .pass (opts.maxRequests - entry'.count))

/-- Fold a request trace through the middleware, keeping the counter
map. -/
def rlRun (opts : RateLimitOptions) (limits : RateLimitMap)
    (reqs : List (Option String × Nat)) : RateLimitMap :=
  reqs.foldl (fun l r => (rlStep opts l r.1 r.2).1) limits

/-! ## Base tool (`base-tool.ts`) -/

structure RequestContext where
  tenant : TenantConfig
  requestId : String
deriving DecidableEq

/-- `BaseTool.getClient`: prefer the bound request context's tenant
(via the factory), fall back to the constructor-supplied single-tenant
client, else throw. -/
def baseToolGetClient (context : Option RequestContext)
    (singleTenantClient : Option GHLApiClient) (maxCacheSize : Nat)
    (cache : ClientCache) (now : Nat) :
    Except String (GHLApiClient × ClientCache) :=
  match context with
  | some ctx => .ok (getClient maxCacheSize cache ctx.tenant now)
  | none =>
      match singleTenantClient with
      | some client => .ok (client, cache)
      | none => .error "No API client available"

/-! ## A concrete authenticated cipher instance

A computable `Gcm` instance used to evaluate the manager's operations
on concrete inputs: each character is serialised as three little-endian
base-256 bytes (every Unicode scalar value is below `2^24`), and the
tag is empty.  It satisfies the cipher inverse law, which is all the
manager's wire-format logic relies on. -/

def encChar (c : Char) : List (Fin 256) :=
  [⟨c.toNat % 256, by omega⟩, ⟨c.toNat / 256 % 256, by omega⟩,
    ⟨c.toNat / 65536 % 256, by omega⟩]

def encodeStr (s : String) : List (Fin 256) :=
  (s.data.map encChar).flatten

def decodeChars : List (Fin 256) → List Char
  | b0 :: b1 :: b2 :: rest =>
      Char.ofNat (b0.val + 256 * b1.val + 65536 * b2.val)
        :: decodeChars rest
  | _ => []

theorem char_toNat_lt (c : Char) : c.toNat < 1114112 := by
  rcases c.valid with h | ⟨_, h2⟩
  · exact Nat.lt_trans h (by decide)
  · exact h2

theorem decodeChars_encodeStr (s : String) :
    decodeChars (encodeStr s) = s.data := by
  unfold encodeStr
  induction s.data with
  | nil => rfl
  | cons c rest ih =>
      have hlt := char_toNat_lt c
      have harith : c.toNat % 256 + 256 * (c.toNat / 256 % 256)
          + 65536 * (c.toNat / 65536 % 256) = c.toNat := by omega
      calc decodeChars ((List.map encChar (c :: rest)).flatten)
          = Char.ofNat (c.toNat % 256 + 256 * (c.toNat / 256 % 256)
              + 65536 * (c.toNat / 65536 % 256))
            :: decodeChars ((List.map encChar rest).flatten) := rfl
        _ = c :: rest := by rw [harith, Char.ofNat_toNat, ih]

def gcmDemo : Gcm where
  enc := fun _ pt => (encodeStr pt, [])
  dec := fun _ _ ct => some (String.mk (decodeChars ct))
  dec_enc := by
    intro iv pt
    simp only [decodeChars_encodeStr]

/-! ## Claim C10 -/

/-- C10: a request carrying no resolved tenant id passes straight
through the per-tenant rate-limit middleware: the outcome is the bare
`next()` (no 429, no headers) and the per-tenant window map is returned
unchanged, whatever state it is in. -/
theorem rate_limit_skips_request_without_tenant
    (opts : RateLimitOptions) (limits : RateLimitMap) (now : Nat) :
    rlStep opts limits none now = (limits, RlOutcome.skip) := rfl

/-! ## Claim C9 -/

/-- C9: with a bound request context, `BaseTool.getClient` returns the
factory's client for the context's tenant and ignores the
constructor-supplied single-tenant client; with no bound context it
returns the constructor-supplied client; with neither it throws. -/
theorem baseTool_getClient_prefers_context
    (context : Option RequestContext)
    (singleTenantClient : Option GHLApiClient) (maxCacheSize : Nat)
    (cache : ClientCache) (now : Nat) :
    (∀ ctx, context = some ctx →
      baseToolGetClient context singleTenantClient maxCacheSize cache now
        = .ok (getClient maxCacheSize cache ctx.tenant now)) ∧
    (∀ client, context = none → singleTenantClient = some client →
      baseToolGetClient context singleTenantClient maxCacheSize cache now
        = .ok (client, cache)) ∧
    (context = none → singleTenantClient = none →
      baseToolGetClient context singleTenantClient maxCacheSize cache now
        = .error "No API client available") := by
  refine ⟨?_, ?_, ?_⟩
  · intro ctx hctx
    subst hctx
    rfl
  · intro client hctx hcl
    subst hctx
    subst hcl
    rfl
  · intro hctx hcl
    subst hctx
    subst hcl
    rfl

def demoTenant : TenantConfig :=
  { tenantId := "acme", name := "Acme", apiKey := "k1",
    locationId := "L1", baseUrl := none, version := none,
    settings := none, createdAt := 1, updatedAt := 1, isActive := true }

def demoContext : RequestContext :=
  { tenant := demoTenant, requestId := "req_1_1" }

def demoSingleClient : GHLApiClient :=
  ⟨{ accessToken := "legacy", baseUrl := ghlDefaultBaseUrl,
     version := ghlDefaultVersion, locationId := "L0" }⟩

theorem baseTool_getClient_prefers_context_witness :
    baseToolGetClient (some demoContext) (some demoSingleClient) 100 [] 5
      = .ok (getClient 100 [] demoTenant 5) ∧
    baseToolGetClient none (some demoSingleClient) 100 [] 5
      = .ok (demoSingleClient, []) ∧
    baseToolGetClient none none 100 [] 5
      = .error "No API client available" :=
  ⟨(baseTool_getClient_prefers_context (some demoContext)
      (some demoSingleClient) 100 [] 5).1 demoContext rfl,
   (baseTool_getClient_prefers_context none (some demoSingleClient)
      100 [] 5).2.1 demoSingleClient rfl rfl,
   (baseTool_getClient_prefers_context none none 100 [] 5).2.2 rfl rfl⟩

/-! ## Claim C3 -/

/-- C3: for every authenticated cipher (any `enc`/`dec` pair satisfying
the cipher inverse law, which AES-256-GCM under a fixed key does) and
every IV, decrypting an encrypted credential string returns the
original string; and any input that does not split into exactly three
`':'`-separated parts is returned unchanged by `decrypt`. -/
theorem encrypt_decrypt_roundtrip (g : Gcm) :
    (∀ iv text, mgrDecrypt g (mgrEncrypt g iv text) = text) ∧
    (∀ s, (splitColon s.data).length ≠ 3 → mgrDecrypt g s = s) :=
  ⟨fun iv text => mgrDecrypt_mgrEncrypt g iv text,
   fun s h => mgrDecrypt_not_three_parts g s h⟩

theorem encrypt_decrypt_roundtrip_witness :
    mgrDecrypt gcmDemo
        (mgrEncrypt gcmDemo [⟨7, by omega⟩] "pit-secret-key") =
      "pit-secret-key" ∧
    (splitColon ("plain-credential" : String).data).length ≠ 3 ∧
    mgrDecrypt gcmDemo "plain-credential" = "plain-credential" :=
  ⟨(encrypt_decrypt_roundtrip gcmDemo).1 [⟨7, by omega⟩] "pit-secret-key",
   by decide,
   (encrypt_decrypt_roundtrip gcmDemo).2 "plain-credential" (by decide)⟩

/-! ## Claim C1 -/

/-- Whenever `updateTenant` succeeds, the factory cache it leaves
behind is exactly `clearTenantCache` applied for the updated tenant id
(`tenant-config-manager.ts` line 145). -/
theorem updateTenant_ok_cache (g : Gcm) (iv : List (Fin 256))
    (store : TenantStoreMap) (cache : ClientCache) (tenantId : String)
    (r : UpdateTenantRequest) (testOk : Bool) (now : Nat)
    (tenant : TenantConfig) (store' : TenantStoreMap)
    (cache' : ClientCache)
    (hok : updateTenant g iv store cache tenantId r testOk now
      = .ok (tenant, store', cache')) :
    cache' = clearTenantCache cache tenantId := by
  unfold updateTenant at hok
  cases hget : alGet store tenantId with
  | none =>
      rw [hget] at hok
      exact Except.noConfusion hok
  | some existing =>
      rw [hget] at hok
      dsimp only at hok
      cases htest : updateTestResult g existing r testOk with
      | error e =>
          rw [htest] at hok
          exact Except.noConfusion hok
      | ok u =>
          cases u
          rw [htest] at hok
          cases hupd : inMemUpdate store tenantId (updatePartialOf g iv r)
              now with
          | error e =>
              rw [hupd] at hok
              exact Except.noConfusion hok
          | ok p =>
              obtain ⟨updated, store2⟩ := p
              rw [hupd] at hok
              simp only [Except.ok.injEq, Prod.mk.injEq] at hok
              exact hok.2.2.symm

/-- C1: after a successful `updateTenant` carrying a new credential,
any subsequent `getClient` call with a configuration for that tenant id
constructs a fresh client from the supplied (new) credential — it can
never return a client cached under the old credential fingerprint,
because `updateTenant` cleared every cache entry stored for that tenant
id and every key a well-formed cache holds determines its entry's
tenant id. -/
theorem updateTenant_invalidates_credential_cache (g : Gcm)
    (iv : List (Fin 256)) (store : TenantStoreMap) (cache : ClientCache)
    (tenantId : String) (r : UpdateTenantRequest) (newKey : String)
    (testOk : Bool) (now : Nat) (tenant : TenantConfig)
    (store' : TenantStoreMap) (cache' : ClientCache)
    (cfg : TenantConfig) (maxCacheSize now2 : Nat)
    (hwf : WFCache cache) (hkey : r.apiKey = some newKey)
    (hok : updateTenant g iv store cache tenantId r testOk now
      = .ok (tenant, store', cache'))
    (hcfg : cfg.tenantId = tenantId) :
    (getClient maxCacheSize cache' cfg now2).1 = createClient cfg ∧
    ((getClient maxCacheSize cache' cfg now2).1).config.accessToken
      = cfg.apiKey := by
  have hc : cache' = clearTenantCache cache tenantId :=
    updateTenant_ok_cache g iv store cache tenantId r testOk now
      tenant store' cache' hok
  subst hc
  rw [← hcfg]
  have h1 := getClient_after_clear maxCacheSize cache cfg now2 hwf
  exact ⟨h1, by rw [h1]; rfl⟩

def demoOldTenant : TenantConfig :=
  { tenantId := "t1", name := "Tenant One", apiKey := "old-key",
    locationId := "L1", baseUrl := none, version := none,
    settings := none, createdAt := 1, updatedAt := 1, isActive := true }

def demoStore1 : TenantStoreMap := [("t1", demoOldTenant)]

/-- A factory cache holding a client built for `"t1"` under the old
credential fingerprint. -/
def demoCache1 : ClientCache :=
  [("t1" ++ "_" ++ hashString "old-key",
    { client := createClient demoOldTenant, lastUsed := 0,
      tenantId := "t1" })]

/-- The tenant configuration after the credential rotation. -/
def demoNewCfg : TenantConfig :=
  { demoOldTenant with apiKey := "new-key", updatedAt := 50 }

theorem updateTenant_invalidates_credential_cache_witness :
    (∃ tenant store' cache',
      updateTenant gcmDemo [] demoStore1 demoCache1 "t1"
          { apiKey := some "new-key" } true 50
        = .ok (tenant, store', cache') ∧
      (getClient 100 cache' demoNewCfg 60).1 = createClient demoNewCfg ∧
      ((getClient 100 cache' demoNewCfg 60).1).config.accessToken
        = demoNewCfg.apiKey) := by
  have hwf : WFCache demoCache1 := by
    intro kv hkv
    rcases List.mem_singleton.mp hkv with rfl
    exact ⟨"old-key", rfl⟩
  cases hok : updateTenant gcmDemo [] demoStore1 demoCache1 "t1"
      { apiKey := some "new-key" } true 50 with
  | error e =>
      exfalso
      have hcontra : (updateTenant gcmDemo [] demoStore1 demoCache1 "t1"
          { apiKey := some "new-key" } true 50).toOption.isSome = true := by
        decide
      rw [hok] at hcontra
      simp [Except.toOption] at hcontra
  | ok res =>
      obtain ⟨tenant, store', cache'⟩ := res
      exact ⟨tenant, store', cache', rfl,
        updateTenant_invalidates_credential_cache gcmDemo [] demoStore1
          demoCache1 "t1" { apiKey := some "new-key" } "new-key" true 50
          tenant store' cache' demoNewCfg 100 60 hwf rfl hok rfl⟩

/-! ## Claim C6 -/

def demoExistingA : TenantConfig :=
  { tenantId := "a", name := "First", apiKey := "k-first",
    locationId := "L1", baseUrl := none, version := none,
    settings := none, createdAt := 3, updatedAt := 3, isActive := true }

def demoStoreA : TenantStoreMap := [("a", demoExistingA)]

def demoCollidingInput : TenantConfigInput :=
  { tenantId := "a", name := "Second", apiKey := "k-second",
    locationId := "L2", baseUrl := none, version := none,
    settings := none, isActive := true }

/-- C6 counterexample: `InMemoryTenantStore.create` called with a
tenant id that already has a record does not fail — it silently
replaces the existing record (its return type carries no failure at
all; `this.tenants.set` overwrites). -/
theorem store_create_collision_counterexample :
    alGet demoStoreA "a" = some demoExistingA ∧
    (inMemCreate demoStoreA demoCollidingInput 20).2
      = [("a", mkTenant demoCollidingInput 20)] ∧
    mkTenant demoCollidingInput 20 ≠ demoExistingA := by
  refine ⟨rfl, rfl, ?_⟩
  decide

/-- C6 (amended): the store-level `create` never rejects a colliding
tenant id — for the in-memory store (and hence the composite store,
whose `create` delegates to its in-memory primary) it overwrites the
existing record.  The `AlreadyExists` rejection lives one layer up:
`TenantConfigManager.createTenant` fails before ever calling the
store's `create` whenever `exists(id)` holds. -/
theorem store_create_overwrites_manager_rejects
    (s : TenantStoreMap) (cfg : TenantConfigInput) (now : Nat)
    (old : TenantConfig) (hold : alGet s cfg.tenantId = some old) :
    (inMemCreate s cfg now).1 = mkTenant cfg now ∧
    alGet (inMemCreate s cfg now).2 cfg.tenantId
      = some (mkTenant cfg now) ∧
    compCreate s cfg now = inMemCreate s cfg now ∧
    (∀ g iv r genId testOk now2, r.tenantId = some cfg.tenantId →
      cfg.tenantId ≠ "" → validateCreateRequest r = .ok () →
      createTenant g iv s r genId testOk now2
        = .error ("Tenant " ++ cfg.tenantId ++ " already exists")) := by
  refine ⟨rfl, ?_, rfl, ?_⟩
  · exact alGet_alSet_same s cfg.tenantId (mkTenant cfg now)
  · intro g iv r genId testOk now2 hrid hne hval
    unfold createTenant
    rw [hval]
    have htruthy : optTruthy r.tenantId = true := by
      rw [hrid]
      simp [optTruthy, hne]
    rw [htruthy]
    simp only [if_true, hrid, Option.getD_some]
    rw [hold]
    rfl

theorem store_create_overwrites_manager_rejects_witness :
    (inMemCreate demoStoreA demoCollidingInput 20).1
      = mkTenant demoCollidingInput 20 ∧
    alGet (inMemCreate demoStoreA demoCollidingInput 20).2 "a"
      = some (mkTenant demoCollidingInput 20) ∧
    compCreate demoStoreA demoCollidingInput 20
      = inMemCreate demoStoreA demoCollidingInput 20 ∧
    createTenant gcmDemo [] demoStoreA
        { tenantId := some "a", name := "Second", apiKey := "k-second",
          locationId := "L2" } "gen" true 20
      = .error ("Tenant " ++ "a" ++ " already exists") := by
  have h := store_create_overwrites_manager_rejects demoStoreA
    demoCollidingInput 20 demoExistingA rfl
  exact ⟨h.1, h.2.1, h.2.2.1,
    h.2.2.2 gcmDemo []
      { tenantId := some "a", name := "Second", apiKey := "k-second",
        locationId := "L2" } "gen" true 20 rfl (by decide) rfl⟩

/-! ## Claim C7 -/

/-- C7 (amended): `update` refreshes `updatedAt` on every store
variant, and preserves `createdAt` on the in-memory path (which is also
the composite store's primary path); but the composite store's
promote-on-update path — an update of a record that exists only in the
fallback store — re-`create`s the record in the primary and thereby
resets `createdAt` to the promotion time instead of preserving it. -/
theorem update_timestamps_and_promote_reset (id : String)
    (p : PartialTenantConfig) (now : Nat) :
    (∀ s t s', inMemUpdate s id p now = .ok (t, s') →
      ∃ old, alGet s id = some old ∧ t.createdAt = old.createdAt ∧
        t.updatedAt = now) ∧
    (∀ primary fallback t s', alGet primary id = none →
      compUpdate primary fallback id p now = .ok (t, s') →
      t.createdAt = now ∧ t.updatedAt = now) := by
  constructor
  · intro s t s' hok
    unfold inMemUpdate at hok
    cases hget : alGet s id with
    | none =>
        rw [hget] at hok
        exact Except.noConfusion hok
    | some existing =>
        rw [hget] at hok
        dsimp only at hok
        simp only [Except.ok.injEq, Prod.mk.injEq] at hok
        refine ⟨existing, rfl, ?_, ?_⟩
        · rw [← hok.1]
        · rw [← hok.1]
  · intro primary fallback t s' hnone hok
    unfold compUpdate at hok
    rw [hnone] at hok
    simp only [Option.isSome_none, Bool.false_eq_true, if_false] at hok
    cases hfb : alGet fallback id with
    | none =>
        rw [hfb] at hok
        exact Except.noConfusion hok
    | some fallbackTenant =>
        rw [hfb] at hok
        simp only [inMemCreate, Except.ok.injEq, Prod.mk.injEq] at hok
        constructor
        · rw [← hok.1]
          rfl
        · rw [← hok.1]
          rfl

def demoFallbackRec : TenantConfig :=
  { tenantId := "d", name := "Env Default", apiKey := "env-key",
    locationId := "L9", baseUrl := none, version := none,
    settings := none, createdAt := 5, updatedAt := 5, isActive := true }

/-- The record the promote path writes into the primary store when
`{ name := some "Renamed" }` is applied to `demoFallbackRec` at time
`10`. -/
def demoPromoted : TenantConfig :=
  mkTenant (dropTimestamps
    (spreadConfig demoFallbackRec { name := some "Renamed" })) 10

/-- C7 counterexample: updating a record that lives only in the
fallback store goes through the composite's promote path, and the
resulting record's `createdAt` is the promotion time `10`, not the
original `5` — the update did not leave `createdAt` unchanged. -/
theorem composite_promote_resets_createdAt_counterexample :
    compUpdate [] [("d", demoFallbackRec)] "d" { name := some "Renamed" }
        10
      = .ok (demoPromoted, [("d", demoPromoted)]) ∧
    demoFallbackRec.createdAt = 5 ∧
    demoPromoted.createdAt = 10 ∧
    demoPromoted.createdAt ≠ demoFallbackRec.createdAt := by
  refine ⟨rfl, rfl, rfl, by decide⟩

theorem update_timestamps_and_promote_reset_witness :
    (∃ t s', inMemUpdate demoStoreA "a" { name := some "Renamed" } 20
        = .ok (t, s') ∧ t.createdAt = 3 ∧ t.updatedAt = 20) ∧
    demoPromoted.createdAt = 10 ∧ demoPromoted.updatedAt = 10 := by
  have h := update_timestamps_and_promote_reset "a"
    { name := some "Renamed" } 20
  cases hok : inMemUpdate demoStoreA "a" { name := some "Renamed" } 20 with
  | error e =>
      exfalso
      have hcontra : (inMemUpdate demoStoreA "a"
          { name := some "Renamed" } 20).toOption.isSome = true := by decide
      rw [hok] at hcontra
      simp [Except.toOption] at hcontra
  | ok res =>
      obtain ⟨t, s'⟩ := res
      obtain ⟨old, hold, hc, hu⟩ := h.1 demoStoreA t s' hok
      have holdA : old = demoExistingA := by
        have : alGet demoStoreA "a" = some demoExistingA := rfl
        rw [this] at hold
        exact (Option.some.injEq _ _ ▸ hold).symm
      have h2 := (update_timestamps_and_promote_reset "d"
        { name := some "Renamed" } 10).2 [] [("d", demoFallbackRec)]
        demoPromoted [("d", demoPromoted)] rfl rfl
      exact ⟨⟨t, s', rfl, by rw [hc, holdA]; rfl, hu⟩, h2.1, h2.2⟩

/-! ## Claim C5 -/

theorem mgrEncrypt_has_colon (g : Gcm) (iv : List (Fin 256))
    (text : String) : ':' ∈ (mgrEncrypt g iv text).data := by
  show ':' ∈ (toHex iv ++ ":" ++ toHex (g.enc iv text).2 ++ ":"
    ++ toHex (g.enc iv text).1).data
  rw [String.data_append]
  apply List.mem_append_left
  rw [String.data_append]
  apply List.mem_append_right
  decide

/-- Successful `createTenant` returns exactly the record the store
persisted: its `apiKey` field is the encrypted credential, and the
store maps the new tenant id to that same record. -/
theorem createTenant_ok_shape (g : Gcm) (iv : List (Fin 256))
    (store : TenantStoreMap) (r : CreateTenantRequest) (genId : String)
    (testOk : Bool) (now : Nat) (t : TenantConfig)
    (store' : TenantStoreMap)
    (hok : createTenant g iv store r genId testOk now = .ok (t, store')) :
    t.apiKey = mgrEncrypt g iv r.apiKey ∧
    alGet store' t.tenantId = some t := by
  unfold createTenant at hok
  cases hval : validateCreateRequest r with
  | error e =>
      rw [hval] at hok
      exact Except.noConfusion hok
  | ok u =>
      cases u
      rw [hval] at hok
      dsimp only at hok
      cases hex : (alGet store (if optTruthy r.tenantId
          then r.tenantId.getD "" else genId)).isSome with
      | true =>
          rw [hex] at hok
          simp only [if_true] at hok
          exact Except.noConfusion hok
      | false =>
          rw [hex] at hok
          simp only [Bool.false_eq_true, if_false] at hok
          cases htest : testTenantConfig (mgrEncrypt g iv r.apiKey)
              r.locationId testOk with
          | error e =>
              rw [htest] at hok
              exact Except.noConfusion hok
          | ok u2 =>
              cases u2
              rw [htest] at hok
              simp only [inMemCreate, Except.ok.injEq, Prod.mk.injEq]
                at hok
              obtain ⟨ht, hs⟩ := hok
              subst ht
              subst hs
              exact ⟨rfl, alGet_alSet_same _ _ _⟩

/-- C5 (amended): a valid `createTenant` that passes validation and
the live test persists the record with an encrypted credential — and
returns that persisted record unchanged to its caller, so the returned
`apiKey` is the encrypted credential and (whenever the supplied
plaintext contains no `':'`) is never equal to the plaintext that was
supplied.  Unlike `getTenant` and `updateTenant`, `createTenant` does
not decrypt before returning. -/
theorem createTenant_returns_encrypted_record (g : Gcm)
    (iv : List (Fin 256)) (store : TenantStoreMap)
    (r : CreateTenantRequest) (genId : String) (testOk : Bool)
    (now : Nat) (t : TenantConfig) (store' : TenantStoreMap)
    (hok : createTenant g iv store r genId testOk now = .ok (t, store')) :
    t.apiKey = mgrEncrypt g iv r.apiKey ∧
    alGet store' t.tenantId = some t ∧
    (':' ∉ r.apiKey.data → t.apiKey ≠ r.apiKey) := by
  obtain ⟨h1, h2⟩ := createTenant_ok_shape g iv store r genId testOk now
    t store' hok
  refine ⟨h1, h2, ?_⟩
  intro hnc he
  apply hnc
  rw [← he, h1]
  exact mgrEncrypt_has_colon g iv r.apiKey

def demoCreateReq : CreateTenantRequest :=
  { tenantId := some "acme", name := "Acme", apiKey := "k1",
    locationId := "L1" }

/-- The record `createTenant` persists for `demoCreateReq` at time
`30` under `gcmDemo` with an empty IV. -/
def demoCreatedStored : TenantConfig :=
  mkTenant
    { tenantId := "acme", name := "Acme",
      apiKey := mgrEncrypt gcmDemo [] "k1", locationId := "L1",
      baseUrl := some ghlDefaultBaseUrl,
      version := some ghlDefaultVersion, settings := some [],
      isActive := true } 30

/-- C5 counterexample: on a concrete valid request with plaintext
credential `"k1"`, `createTenant` succeeds and hands its caller the
stored record, whose `apiKey` is the `iv:authTag:ciphertext` string —
not the plaintext `"k1"` the claim says is returned. -/
theorem createTenant_plaintext_return_counterexample :
    createTenant gcmDemo [] [] demoCreateReq "gen" true 30
      = .ok (demoCreatedStored, [("acme", demoCreatedStored)]) ∧
    demoCreatedStored.apiKey ≠ "k1" := by
  refine ⟨rfl, ?_⟩
  decide

theorem createTenant_returns_encrypted_record_witness :
    demoCreatedStored.apiKey = mgrEncrypt gcmDemo [] "k1" ∧
    alGet [("acme", demoCreatedStored)] demoCreatedStored.tenantId
      = some demoCreatedStored ∧
    demoCreatedStored.apiKey ≠ "k1" := by
  have h := createTenant_returns_encrypted_record gcmDemo [] []
    demoCreateReq "gen" true 30 demoCreatedStored
    [("acme", demoCreatedStored)] rfl
  exact ⟨h.1, h.2.1, h.2.2 (by decide)⟩

/-! ## Claim C4 -/

theorem isPrefixOf_append_self (a b : List Char) :
    a.isPrefixOf (a ++ b) = true := by
  induction a with
  | nil => simp [List.isPrefixOf]
  | cons c rest ih => simp [List.isPrefixOf, ih]

theorem takeWhile_append_cons (p : Char → Bool) (a : List Char)
    (c : Char) (rest : List Char) (ha : ∀ x ∈ a, p x = true)
    (hc : p c = false) : (a ++ c :: rest).takeWhile p = a := by
  induction a with
  | nil => simp [List.takeWhile, hc]
  | cons d ds ih =>
      have hd : p d = true := ha d (List.mem_cons_self _ _)
      simp only [List.cons_append, List.takeWhile, hd, List.append_eq]
      rw [ih (fun x hx => ha x (List.mem_cons_of_mem _ hx))]

/-- A URL of the shape `/tenant/<slug>/...` (nonempty, slash-free slug)
makes the path pattern capture exactly the slug. -/
theorem pathTenantMatch_slug (t : String) (rest : List Char)
    (hne : t.data ≠ []) (hs : '/' ∉ t.data) :
    pathTenantMatch ("/tenant/".data ++ (t.data ++ '/' :: rest))
      = some t.data := by
  have hcap : (List.drop 8
        ('/' :: ("tenant/".data ++ (t.data ++ '/' :: rest)))).takeWhile
        (fun x => x != '/') = t.data := by
    have hdrop : List.drop 8
        ('/' :: ("tenant/".data ++ (t.data ++ '/' :: rest)))
        = t.data ++ '/' :: rest :=
      List.drop_left "/tenant/".data (t.data ++ '/' :: rest)
    rw [hdrop]
    apply takeWhile_append_cons
    · intro x hx
      have hxne : x ≠ '/' := fun he => hs (he ▸ hx)
      simp [hxne]
    · simp
  have hpre : "/tenant/".data.isPrefixOf
      ('/' :: ("tenant/".data ++ (t.data ++ '/' :: rest))) = true :=
    isPrefixOf_append_self "/tenant/".data (t.data ++ '/' :: rest)
  show pathTenantMatch
    ('/' :: ("tenant/".data ++ (t.data ++ '/' :: rest))) = some t.data
  rw [pathTenantMatch, hpre]
  simp only [if_true, hcap, hne]
  simp

def mkHeaderReq (t : String) : HttpReq :=
  { headers := [("x-tenant-id", t)], query := [], url := "/" }

def mkQueryReq (t : String) : HttpReq :=
  { headers := [], query := [("tenant", t)], url := "/" }

def mkPathReq (t : String) : HttpReq :=
  { headers := [], query := [], url := "/tenant/" ++ t ++ "/contacts" }

/-- C4 (amended): for a stored tenant id `t` (nonempty and
slash-free), supplying `t` via the configured header, the configured
query parameter, or a `/tenant/<id>/` URL segment all resolve to the
same `tenantId` — but the `source` tags do NOT differ between all
three methods: the header route is tagged `header` while the query
route and the path route are both tagged `query` (the path branch
reuses the `'query'` source tag). -/
theorem resolver_same_tenant_header_query_path_sources
    (exists_ : String → Bool) (t : String) (hne : t ≠ "")
    (hs : '/' ∉ t.data) (hex : exists_ t = true) :
    resolveFromHttpRequest exists_ {} (mkHeaderReq t)
      = some { tenantId := t, source := .header } ∧
    resolveFromHttpRequest exists_ {} (mkQueryReq t)
      = some { tenantId := t, source := .query } ∧
    resolveFromHttpRequest exists_ {} (mkPathReq t)
      = some { tenantId := t, source := .query } := by
  have hlower : strLower "x-tenant-id" = "x-tenant-id" := by decide
  have hdata : t.data ≠ [] := fun hd => hne (String.ext hd)
  refine ⟨?_, ?_, ?_⟩
  · have hh : resolveViaHeader exists_ {} (mkHeaderReq t)
        = some { tenantId := t, source := .header } := by
      unfold resolveViaHeader getHeaderValue
      simp only [mkHeaderReq, hlower]
      have halg : alGet [("x-tenant-id", t)] "x-tenant-id" = some t := by
        simp [alGet]
      rw [halg]
      simp [hne, hex]
    show ((resolveViaHeader exists_ {} (mkHeaderReq t)).orElse _) = _
    rw [hh]
    rfl
  · have hh : resolveViaHeader exists_ {} (mkQueryReq t) = none := by
      unfold resolveViaHeader getHeaderValue
      simp [mkQueryReq, alGet, List.find?]
    have hq : resolveViaQuery exists_ {} (mkQueryReq t)
        = some { tenantId := t, source := .query } := by
      unfold resolveViaQuery
      simp only [mkQueryReq]
      have halg : alGet [("tenant", t)] "tenant" = some t := by
        simp [alGet]
      rw [halg]
      simp [hne, hex]
    show ((resolveViaHeader exists_ {} (mkQueryReq t)).orElse _) = _
    rw [hh]
    show ((resolveViaQuery exists_ {} (mkQueryReq t)).orElse _) = _
    rw [hq]
    rfl
  · have hh : resolveViaHeader exists_ {} (mkPathReq t) = none := by
      unfold resolveViaHeader getHeaderValue
      simp [mkPathReq, alGet, List.find?]
    have hq : resolveViaQuery exists_ {} (mkPathReq t) = none := by
      unfold resolveViaQuery
      simp [mkPathReq, alGet]
    have hurl : (mkPathReq t).url.data
        = "/tenant/".data ++ (t.data ++ '/' :: "contacts".data) := by
      show ("/tenant/" ++ t ++ "/contacts").data = _
      rw [String.data_append, String.data_append, List.append_assoc]
    have hp : resolveViaPath exists_ (mkPathReq t)
        = some { tenantId := t, source := .query } := by
      unfold resolveViaPath
      rw [hurl, pathTenantMatch_slug t "contacts".data hdata hs]
      show (if exists_ t = true then
          some ({ tenantId := t, source := TenantSource.query }
            : TenantIdentifier)
        else none)
        = some ({ tenantId := t, source := TenantSource.query }
            : TenantIdentifier)
      rw [hex]
      simp
    show ((resolveViaHeader exists_ {} (mkPathReq t)).orElse _) = _
    rw [hh]
    show ((resolveViaQuery exists_ {} (mkPathReq t)).orElse _) = _
    rw [hq]
    show ((resolveViaPath exists_ (mkPathReq t)).orElse _) = _
    rw [hp]
    rfl

/-- C4 counterexample: with the store containing exactly `"acme"`,
query-based and path-based identification return identical
`TenantIdentifier`s — equal `tenantId` AND equal `source` (`query`) —
so the `source` field does not differ between the three identification
methods (only the header route carries a distinct tag). -/
theorem resolver_path_source_counterexample :
    resolveFromHttpRequest (fun s => s == "acme") {} (mkQueryReq "acme")
      = some { tenantId := "acme", source := .query } ∧
    resolveFromHttpRequest (fun s => s == "acme") {} (mkPathReq "acme")
      = some { tenantId := "acme", source := .query } ∧
    resolveFromHttpRequest (fun s => s == "acme") {} (mkHeaderReq "acme")
      = some { tenantId := "acme", source := .header } := by
  refine ⟨?_, ?_, ?_⟩ <;> decide

theorem resolver_same_tenant_sources_witness :
    resolveFromHttpRequest (fun s => s == "beta") {} (mkHeaderReq "beta")
      = some { tenantId := "beta", source := .header } ∧
    resolveFromHttpRequest (fun s => s == "beta") {} (mkQueryReq "beta")
      = some { tenantId := "beta", source := .query } ∧
    resolveFromHttpRequest (fun s => s == "beta") {} (mkPathReq "beta")
      = some { tenantId := "beta", source := .query } :=
  resolver_same_tenant_header_query_path_sources (fun s => s == "beta")
    "beta" (by decide) (by decide) (by decide)

/-! ## Claim C2 -/

def demoT1 : TenantConfig := { demoTenant with tenantId := "t1" }

def demoT2 : TenantConfig := { demoTenant with tenantId := "t2" }

def demoT3 : TenantConfig := { demoTenant with tenantId := "t3" }

/-- C2 (code bug): with `maxCacheSize = 2`, three `getClient` calls for
three distinct tenants arriving at the same millisecond leave the
factory cache holding 3 entries — the bound is violated and no entry
was evicted.  The LRU scan in `addToCache` initialises its running
minimum to `new Date()` and only replaces it on a strictly smaller
`lastUsed`, so when every cached entry was last used in the current
millisecond the scan finds no victim (`oldestKey` stays `null`) and the
insertion proceeds past capacity. -/
theorem factory_cache_exceeds_max_on_timestamp_tie :
    2 < ((getClient 2
      ((getClient 2
        ((getClient 2 [] demoT1 100).2) demoT2 100).2) demoT3 100).2).length := by
  decide

/-! ## Claim C8 -/

theorem rlStep_some_fst (opts : RateLimitOptions) (limits : RateLimitMap)
    (t : String) (now : Nat) :
    ∃ e, (rlStep opts limits (some t) now).1 = alSet limits t e := by
  unfold rlStep
  dsimp only
  split
  · exact ⟨_, rfl⟩
  · exact ⟨_, rfl⟩

theorem rlStep_preserves_other (opts : RateLimitOptions)
    (limits : RateLimitMap) (t t' : String) (now : Nat) (hne : t' ≠ t) :
    alGet (rlStep opts limits (some t) now).1 t' = alGet limits t' := by
  obtain ⟨e, he⟩ := rlStep_some_fst opts limits t now
  rw [he, alGet_alSet_other _ _ _ _ hne]

theorem rlStep_in_window (opts : RateLimitOptions)
    (limits : RateLimitMap) (t : String) (now c r : Nat)
    (hentry : alGet limits t = some ⟨c, r⟩) (hwin : ¬ r < now) :
    (rlStep opts limits (some t) now).1 = alSet limits t ⟨c + 1, r⟩ := by
  unfold rlStep
  dsimp only
  rw [hentry]
  simp only [hwin, if_false]
  split <;> rfl

theorem rlStep_reject_outcome (opts : RateLimitOptions)
    (limits : RateLimitMap) (t : String) (now c r : Nat)
    (hentry : alGet limits t = some ⟨c, r⟩) (hwin : ¬ r < now)
    (hcount : opts.maxRequests ≤ c) :
    (rlStep opts limits (some t) now).2
      = .reject ((r - now + 999) / 1000) := by
  unfold rlStep
  dsimp only
  rw [hentry]
  simp only [hwin, if_false]
  rw [if_pos (by omega : opts.maxRequests < c + 1)]

theorem rlStep_fresh (opts : RateLimitOptions) (limits : RateLimitMap)
    (t : String) (now : Nat) (hnone : alGet limits t = none) :
    (rlStep opts limits (some t) now).1
      = alSet limits t ⟨1, now + opts.windowMs⟩ ∧
    (1 ≤ opts.maxRequests →
      (rlStep opts limits (some t) now).2
        = .pass (opts.maxRequests - 1)) := by
  unfold rlStep
  dsimp only
  rw [hnone]
  constructor
  · split <;> rfl
  · intro hmax
    rw [if_neg (by omega : ¬ opts.maxRequests < 0 + 1)]

theorem rlStep_reset (opts : RateLimitOptions) (limits : RateLimitMap)
    (t : String) (now c r : Nat)
    (hentry : alGet limits t = some ⟨c, r⟩) (hlt : r < now) :
    (rlStep opts limits (some t) now).1
      = alSet limits t ⟨1, now + opts.windowMs⟩ ∧
    (1 ≤ opts.maxRequests →
      (rlStep opts limits (some t) now).2
        = .pass (opts.maxRequests - 1)) := by
  unfold rlStep
  dsimp only
  rw [hentry]
  simp only [hlt, if_true]
  constructor
  · split <;> rfl
  · intro hmax
    rw [if_neg (by omega : ¬ opts.maxRequests < 0 + 1)]

theorem rlRun_in_window_count (opts : RateLimitOptions) (t : String)
    (ts : List Nat) :
    ∀ (limits : RateLimitMap) (c r : Nat),
      alGet limits t = some ⟨c, r⟩ → (∀ x ∈ ts, ¬ r < x) →
      alGet (rlRun opts limits
          (ts.map (fun n => ((some t : Option String), n)))) t
        = some ⟨c + ts.length, r⟩ := by
  induction ts with
  | nil =>
      intro limits c r h _
      simpa [rlRun] using h
  | cons x xs ih =>
      intro limits c r h hin
      rw [List.map_cons]
      show alGet (rlRun opts (rlStep opts limits (some t) x).1
        (xs.map (fun n => ((some t : Option String), n)))) t = _
      rw [rlStep_in_window opts limits t x c r h
        (hin x (List.mem_cons_self _ _))]
      have hrec := ih (alSet limits t ⟨c + 1, r⟩) (c + 1) r
        (alGet_alSet_same _ _ _)
        (fun y hy => hin y (List.mem_cons_of_mem _ hy))
      rw [hrec]
      have harith : c + 1 + xs.length = c + (xs.length + 1) := by omega
      rw [harith]
      rfl

theorem rlRun_preserves_other (opts : RateLimitOptions) (t t' : String)
    (ts : List Nat) (hne : t' ≠ t) :
    ∀ limits : RateLimitMap,
      alGet (rlRun opts limits
          (ts.map (fun n => ((some t : Option String), n)))) t'
        = alGet limits t' := by
  induction ts with
  | nil => intro limits; rfl
  | cons x xs ih =>
      intro limits
      rw [List.map_cons]
      show alGet (rlRun opts (rlStep opts limits (some t) x).1
        (xs.map (fun n => ((some t : Option String), n)))) t' = _
      rw [ih, rlStep_preserves_other opts limits t t' x hne]

/-- The middleware state after a burst of requests from a single
tenant at the given times, starting from a fresh (empty) counter
map. -/
def rlBurst (opts : RateLimitOptions) (t : String) (times : List Nat) :
    RateLimitMap :=
  rlRun opts [] (times.map (fun n => ((some t : Option String), n)))

theorem rlBurst_lookup (opts : RateLimitOptions) (t : String)
    (t0 : Nat) (ts : List Nat)
    (hts : ∀ x ∈ ts, x ≤ t0 + opts.windowMs) :
    alGet (rlBurst opts t (t0 :: ts)) t
      = some ⟨ts.length + 1, t0 + opts.windowMs⟩ := by
  unfold rlBurst
  rw [List.map_cons]
  show alGet (rlRun opts (rlStep opts [] (some t) t0).1
    (ts.map (fun n => ((some t : Option String), n)))) t = _
  rw [(rlStep_fresh opts [] t t0 rfl).1]
  have h := rlRun_in_window_count opts t ts
    (alSet [] t ⟨1, t0 + opts.windowMs⟩) 1 (t0 + opts.windowMs)
    (alGet_alSet_same _ _ _)
    (fun x hx => by have := hts x hx; omega)
  rw [h]
  have : 1 + ts.length = ts.length + 1 := by omega
  rw [this]

/-- C8 counterexample: with a window of 1500 ms and `maxRequests = 1`,
the second request of a tenant inside the window (both requests at time
0) is rejected with `retryAfter = Math.ceil(1500 / 1000) = 2` seconds —
2000 ms, strictly more than the 1500 ms window length.  The claim's
"retryAfter value is at most the window length" is false for windows
that are not a whole number of seconds. -/
theorem rate_limiter_retryAfter_exceeds_window_counterexample :
    (rlStep { windowMs := 1500, maxRequests := 1 }
        (rlBurst { windowMs := 1500, maxRequests := 1 } "acme" [0])
        (some "acme") 0).2 = RlOutcome.reject 2 ∧
    1500 < 2 * 1000 := by
  refine ⟨?_, ?_⟩ <;> decide

/-- C8 (amended): starting from a fresh window for tenant `t` opened by
a request at time `t0` and filled by `maxRequests - 1` further
in-window requests, the `(maxRequests + 1)`-th request at time `now`
inside the window is rejected with
`retryAfter = ceil((resetTime - now) / 1000)` seconds, which is at most
the window length rounded up to whole seconds, `ceil(windowMs / 1000)`
(equal to the window length exactly when the window is a whole number
of seconds); a request from a different tenant during the same window
passes; and the first request after the window's `resetTime` has passed
starts a fresh counter (count 1, new reset time) and passes. -/
theorem rate_limiter_window_rejects_and_resets
    (opts : RateLimitOptions) (t t' : String) (t0 : Nat)
    (ts : List Nat) (now now2 : Nat)
    (hlen : ts.length + 1 = opts.maxRequests)
    (hts : ∀ x ∈ ts, x ≤ t0 + opts.windowMs)
    (hlow : t0 ≤ now) (hhigh : now ≤ t0 + opts.windowMs)
    (hne : t' ≠ t) (hlate : t0 + opts.windowMs < now2) :
    (rlStep opts (rlBurst opts t (t0 :: ts)) (some t) now).2
      = .reject ((t0 + opts.windowMs - now + 999) / 1000) ∧
    (t0 + opts.windowMs - now + 999) / 1000
      ≤ (opts.windowMs + 999) / 1000 ∧
    (rlStep opts (rlBurst opts t (t0 :: ts)) (some t') now).2
      = .pass (opts.maxRequests - 1) ∧
    alGet (rlStep opts
        ((rlStep opts (rlBurst opts t (t0 :: ts)) (some t) now).1)
        (some t) now2).1 t
      = some ⟨1, now2 + opts.windowMs⟩ ∧
    (rlStep opts
        ((rlStep opts (rlBurst opts t (t0 :: ts)) (some t) now).1)
        (some t) now2).2
      = .pass (opts.maxRequests - 1) := by
  have hmax1 : 1 ≤ opts.maxRequests := by omega
  have hb := rlBurst_lookup opts t t0 ts hts
  have hwin : ¬ t0 + opts.windowMs < now := by omega
  refine ⟨?_, ?_, ?_, ?_, ?_⟩
  · exact rlStep_reject_outcome opts (rlBurst opts t (t0 :: ts)) t now
      (ts.length + 1) (t0 + opts.windowMs) hb hwin (by omega)
  · omega
  · have hnone : alGet (rlBurst opts t (t0 :: ts)) t' = none := by
      unfold rlBurst
      rw [rlRun_preserves_other opts t t' (t0 :: ts) hne []]
      rfl
    exact (rlStep_fresh opts (rlBurst opts t (t0 :: ts)) t' now
      hnone).2 hmax1
  · have hstep1 := rlStep_in_window opts (rlBurst opts t (t0 :: ts)) t
      now (ts.length + 1) (t0 + opts.windowMs) hb hwin
    rw [hstep1]
    have hentry2 : alGet (alSet (rlBurst opts t (t0 :: ts)) t
        ⟨ts.length + 1 + 1, t0 + opts.windowMs⟩) t
        = some ⟨ts.length + 1 + 1, t0 + opts.windowMs⟩ :=
      alGet_alSet_same _ _ _
    rw [(rlStep_reset opts _ t now2 (ts.length + 1 + 1)
      (t0 + opts.windowMs) hentry2 hlate).1]
    exact alGet_alSet_same _ _ _
  · have hstep1 := rlStep_in_window opts (rlBurst opts t (t0 :: ts)) t
      now (ts.length + 1) (t0 + opts.windowMs) hb hwin
    rw [hstep1]
    have hentry2 : alGet (alSet (rlBurst opts t (t0 :: ts)) t
        ⟨ts.length + 1 + 1, t0 + opts.windowMs⟩) t
        = some ⟨ts.length + 1 + 1, t0 + opts.windowMs⟩ :=
      alGet_alSet_same _ _ _
    exact (rlStep_reset opts _ t now2 (ts.length + 1 + 1)
      (t0 + opts.windowMs) hentry2 hlate).2 hmax1

def demoRlOpts : RateLimitOptions := { windowMs := 60000, maxRequests := 2 }

theorem rate_limiter_window_rejects_and_resets_witness :
    (rlStep demoRlOpts (rlBurst demoRlOpts "acme" [0, 10])
        (some "acme") 20).2 = .reject 60 ∧
    60 ≤ (demoRlOpts.windowMs + 999) / 1000 ∧
    (rlStep demoRlOpts (rlBurst demoRlOpts "acme" [0, 10])
        (some "beta") 20).2 = .pass 1 ∧
    alGet (rlStep demoRlOpts
        ((rlStep demoRlOpts (rlBurst demoRlOpts "acme" [0, 10])
          (some "acme") 20).1) (some "acme") 70000).1 "acme"
      = some ⟨1, 70000 + 60000⟩ ∧
    (rlStep demoRlOpts
        ((rlStep demoRlOpts (rlBurst demoRlOpts "acme" [0, 10])
          (some "acme") 20).1) (some "acme") 70000).2 = .pass 1 := by
  have h := rate_limiter_window_rejects_and_resets demoRlOpts "acme"
    "beta" 0 [10] 20 70000 (by decide) (by decide) (by omega)
    (by decide) (by decide) (by decide)
  exact ⟨h.1, h.2.1, h.2.2.1, h.2.2.2.1, h.2.2.2.2⟩

end Ghl
